import Mathlib

/-!
Shallow embedding of `sc_manifest_parser/sc_manifest_parser.py` from
rdkcentral/sc-manifest-parser, together with theorems about the manifest
resolution model: element-wrapper attribute access with default-record
fallback, derived project attributes, remove-project filtering, include
flattening and the construction-time error conditions.
-/

namespace ScManifestParser

/-- An XML element as lxml presents it to this code: a tag, an attribute
map (unique keys, kept here as an association list in document order) and
the list of child elements in document order. -/
inductive XmlElem where
  | mk (tag : String) (attrs : List (String × String)) (children : List XmlElem)

/-- Tag of an element. -/
def XmlElem.tag : XmlElem → String
  | .mk t _ _ => t

/-- Attribute list of an element. -/
def XmlElem.attrs : XmlElem → List (String × String)
  | .mk _ a _ => a

/-- Children of an element, in document order. -/
def XmlElem.children : XmlElem → List XmlElem
  | .mk _ _ c => c

/-- `element.attrib.get(name)`: the attribute's string value if the
attribute is present on the node, else `None`. An empty string value is a
present attribute. -/
def getAttr (e : XmlElem) (name : String) : Option String :=
  (e.attrs.find? (fun p => p.1 == name)).map (fun p => p.2)

/-- The resolver state that `ScManifest.__init__` builds: `self.manifests`
(the ordered document set, path to parsed tree in insertion order) and
`self._default` (the unique `<default>` element, if any). -/
structure ScManifest where
  manifests : List (String × XmlElem)
  defaultElem : Option XmlElem

/-- `tree.getroot().findall(name)`: the direct children of the document
root carrying the given tag, in document order. -/
def findTop (doc : XmlElem) (name : String) : List XmlElem :=
  doc.children.filter (fun c => c.tag == name)

/-- `ScManifest._find_all` over an explicit document list: the loop
`results = []; for tree in manifests.values(): results.extend(...)`. -/
def findAllDocs (manifests : List (String × XmlElem)) (name : String) : List XmlElem :=
  manifests.foldl (fun acc pd => acc ++ findTop pd.2 name) []

/-- `ScManifest._find_all(element_name)` (lines 284-290). -/
def ScManifest.findAll (m : ScManifest) (name : String) : List XmlElem :=
  findAllDocs m.manifests name

/-- `ScManifest.get_default_value` (lines 222-223):
`self._default.get(name) if self._default is not None else None`. -/
def getDefaultValue (m : ScManifest) (name : String) : Option String :=
  match m.defaultElem with
  | some d => getAttr d name
  | none => none

/-- `ManifestElementInterface.__getattr__` (lines 30-34): the node's own
attribute value when present (the check is `is None`, so an empty string
is returned as is), else the manifest's default-record value. -/
def interfaceGet (m : ScManifest) (e : XmlElem) (name : String) : Option String :=
  match getAttr e name with
  | some v => some v
  | none => getDefaultValue m name

/-- Errors raised by the Python attribute protocol as modelled here. -/
inductive PyError where
  | attributeNotSet (name : String)
  | noneTypeAttr
  deriving DecidableEq

/-- `ManifestElementInterface.__delattr__` (lines 40-47): delete the
attribute from the element's own map; a `KeyError` (the attribute was
never explicitly set on this node) becomes an `AttributeError`, without
consulting the default record. -/
def delAttr (e : XmlElem) (name : String) : Except PyError XmlElem :=
  match getAttr e name with
  | some _ => .ok (XmlElem.mk e.tag (e.attrs.filter (fun p => !(p.1 == name))) e.children)
  | none => .error (.attributeNotSet name)

/-- Assignment into `self._element.attrib` (dict semantics: overwrite in
place when the key exists, append otherwise). -/
def setAttrList (attrs : List (String × String)) (name value : String) :
    List (String × String) :=
  match attrs with
  | [] => [(name, value)]
  | p :: rest =>
    if p.1 == name then (name, value) :: rest
    else p :: setAttrList rest name value

/-- A wrapper as `ManifestElementInterface.__init__` builds it; the
wrapped element may be null, because `ScManifest.default` wraps
`self._default` even when no default record exists. -/
structure ManifestElementInterface where
  element : Option XmlElem

/-- `ScManifest.default` (lines 208-210): always returns a wrapper around
`self._default`, even when `self._default` is `None`. -/
def defaultProp (m : ScManifest) : Option ManifestElementInterface :=
  some ⟨m.defaultElem⟩

/-- Reading an attribute through a wrapper: on a null element the access
`self._element.attrib` raises an `AttributeError` on `NoneType`. -/
def wrapperGet (m : ScManifest) (w : ManifestElementInterface) (name : String) :
    Except PyError (Option String) :=
  match w.element with
  | none => .error .noneTypeAttr
  | some e => .ok (interfaceGet m e name)

/-- `ManifestElementInterface.__setattr__` (lines 36-38) through a
wrapper; on a null element the access raises on `NoneType`. -/
def wrapperSet (w : ManifestElementInterface) (name value : String) :
    Except PyError ManifestElementInterface :=
  match w.element with
  | none => .error .noneTypeAttr
  | some e => .ok ⟨some (XmlElem.mk e.tag (setAttrList e.attrs name value) e.children)⟩

/-- Python truthiness of an optional string: `None` and `""` are falsy. -/
def pyTruthy : Option String → Bool
  | none => false
  | some s => !s.isEmpty

/-- Python `a or b` on optional strings. -/
def pyOr (a b : Option String) : Option String :=
  if pyTruthy a then a else b

/-- `ProjectElementInterface.path` (lines 77-79):
`self._element.attrib.get('path') or self._element.attrib.get('name')`;
this reads the raw attribute map only, with no default-record fallback. -/
def projectPath (e : XmlElem) : Option String :=
  pyOr (getAttr e "path") (getAttr e "name")

/-- `ManifestElementInterface.search_children` (lines 61-71): the
children whose tag equals the given name, in document order. -/
def searchChildren (e : XmlElem) (name : String) : List XmlElem :=
  e.children.filter (fun c => c.tag == name)

/-- Python `str(x)` as the f-string applies it to an optional value. -/
def pyStr : Option String → String
  | none => "None"
  | some s => s

/-- The loop of `ProjectElementInterface._get_alternative_branch`
(lines 123-127): scan the annotations left to right; the first whose
(default-fallback) `name` equals the branch annotation yields its `value`,
the first whose `name` equals the suffix annotation yields
`"<branch>-<value>"`. -/
def altBranchScan (m : ScManifest) (branch branchAnn suffixAnn : String) :
    List XmlElem → Option String
  | [] => none
  | a :: rest =>
    if interfaceGet m a "name" = some branchAnn then interfaceGet m a "value"
    else if interfaceGet m a "name" = some suffixAnn then
      some (branch ++ "-" ++ pyStr (interfaceGet m a "value"))
    else altBranchScan m branch branchAnn suffixAnn rest

/-- `ProjectElementInterface._get_alternative_branch` (lines 105-129). -/
def getAlternativeBranch (m : ScManifest) (e : XmlElem) (branch : String) : Option String :=
  altBranchScan m branch ("GIT_FLOW_BRANCH_" ++ branch.toUpper) "GIT_FLOW_SUFFIX"
    (searchChildren e "annotation")

/-- `ProjectElementInterface.alternative_master` (lines 97-99). -/
def alternativeMaster (m : ScManifest) (e : XmlElem) : Option String :=
  getAlternativeBranch m e "master"

/-- `ProjectElementInterface.alternative_develop` (lines 101-103). -/
def alternativeDevelop (m : ScManifest) (e : XmlElem) : Option String :=
  getAlternativeBranch m e "develop"

/-- The condition of the three-armed `if` in
`ScManifest._apply_remove_project_attributes` (lines 314-321). The
remove-project's `name`/`path` are read through the generic wrapper
(default fallback applies); the project's `name` likewise, while the
project's `path` is the derived `ProjectElementInterface.path`. -/
def removeMatches (m : ScManifest) (rm proj : XmlElem) : Bool :=
  (interfaceGet m rm "name" == interfaceGet m proj "name" &&
    interfaceGet m rm "path" == projectPath proj) ||
  (interfaceGet m rm "name" == interfaceGet m proj "name" &&
    interfaceGet m rm "path" == none) ||
  (interfaceGet m rm "name" == none &&
    interfaceGet m rm "path" == projectPath proj)

/-- The inner loop of `_apply_remove_project_attributes`: scan the list,
remove the first matching project (each wrapper is a distinct object, so
`projects.remove(project)` deletes exactly the element under the cursor)
and `break`. -/
def removeFirstMatch (m : ScManifest) (rm : XmlElem) : List XmlElem → List XmlElem
  | [] => []
  | p :: rest =>
    if removeMatches m rm p then rest
    else p :: removeFirstMatch m rm rest

/-- The outer loop of `_apply_remove_project_attributes`: apply each
remove-project entry, in order, to the (possibly already shortened)
list. -/
def applyRemoveList (m : ScManifest) (rms : List XmlElem) (projects : List XmlElem) :
    List XmlElem :=
  rms.foldl (fun ps rm => removeFirstMatch m rm ps) projects

/-- `ScManifest.remove_projects` (lines 199-202), as the underlying
elements. -/
def removeProjectsOf (m : ScManifest) : List XmlElem :=
  m.findAll "remove-project"

/-- `ScManifest._apply_remove_project_attributes` (lines 305-324). -/
def applyRemoveProjectAttributes (m : ScManifest) (projects : List XmlElem) :
    List XmlElem :=
  applyRemoveList m (removeProjectsOf m) projects

/-- `ScManifest.projects` (lines 188-197): the freshly derived top-level
project list with remove-project filtering applied. -/
def projectsOf (m : ScManifest) : List XmlElem :=
  applyRemoveProjectAttributes m (m.findAll "project")

/-- `ScManifest.projects` with the resolver state threaded explicitly:
the method reads `self.manifests`, builds a fresh local list, filters it
locally, and writes nothing back to `self` or to the trees. -/
def projectsCall (m : ScManifest) : List XmlElem × ScManifest :=
  let projects := m.findAll "project"
  let projects := applyRemoveProjectAttributes m projects
  (projects, m)

/-- An entry in the modelled file system: a regular XML file, or a
symbolic link (relevant only for the workspace-root pointer file). -/
inductive FsEntry where
  | file (doc : XmlElem)
  | symlink (target : String)

/-- The file system the resolver reads from: path to entry. -/
def FileSystem := List (String × FsEntry)

/-- Look a path up in the file system. -/
def readFs (fs : FileSystem) (path : String) : Option FsEntry :=
  (fs.find? (fun p => p.1 == path)).map (fun p => p.2)

/-- `Path(a) / b` for the path shapes this parser produces. -/
def pathJoin (a b : String) : String := a ++ "/" ++ b

/-- Scan a reversed character list for the first slash; the characters
after it (in the original order) form the last path component. -/
def dirOfAux : List Char → Option (List Char)
  | [] => none
  | c :: rest => if c = '/' then some rest else dirOfAux rest

/-- `p.parent`: the path with its final slash-separated component
removed; a single-component path has parent `"."`. -/
def dirOf (p : String) : String :=
  match dirOfAux p.data.reverse with
  | some rest => String.mk rest.reverse
  | none => "."

/-- Conditions under which resolver construction terminates abnormally. -/
inductive LoadError where
  /-- `FileNotFoundError` from the existence check in `__init__`. -/
  | fileNotFound (path : String)
  /-- `OSError` from `etree.parse` on a missing included file. -/
  | parseOSError (path : String)
  /-- `ValueError` "Include element in manifest ... missing name!" raised
  in `_parse_include`, carrying the offending document's path. -/
  | malformedInclude (path : String)
  /-- `TypeError` from `Path(include_root) / None` when the root loop in
  `__init__` forwards a missing `name` to `_parse_include`. -/
  | pathJoinTypeError
  /-- `ValueError` "More than one <default> element." -/
  | duplicateDefault
  /-- `TypeError` "can only concatenate str (not int) to str" raised
  while `from_repo_root` builds its include-count error message. -/
  | strConcatTypeError
  /-- `KeyError` from `included[0].attrib['name']` in `from_repo_root`. -/
  | keyError
  /-- Recursion budget of the model exhausted (the source recurses
  without bound; this constructor never arises at sufficient fuel). -/
  | outOfFuel
  deriving DecidableEq

/-- The loop of `_parse_include` over an included document's top-level
elements (lines 297-303), abstracted over the recursive resolution of a
nested include: each `include` child must carry a `name` (else the
`ValueError` naming the containing document's path) and is then resolved
against the document's directory. -/
def subLoop
    (resolve : Option String → String → List (String × XmlElem) →
      Except LoadError (List (String × XmlElem)))
    (fullPath : String) :
    List XmlElem → List (String × XmlElem) →
    Except LoadError (List (String × XmlElem))
  | [], acc => .ok acc
  | sub :: rest, acc =>
    if sub.tag == "include" then
      match getAttr sub "name" with
      | none => .error (.malformedInclude fullPath)
      | some n =>
        match resolve (some n) (dirOf fullPath) acc with
        | .error e => .error e
        | .ok acc2 => subLoop resolve fullPath rest acc2
    else subLoop resolve fullPath rest acc

/-- The dict assignment `self.manifests[full_path] = include_manifest`
(line 295): one entry per distinct path — an already-loaded path keeps
its original insertion position and has its document overwritten, a new
path is appended. -/
def upsertDoc (acc : List (String × XmlElem)) (path : String) (doc : XmlElem) :
    List (String × XmlElem) :=
  match acc with
  | [] => [(path, doc)]
  | p :: rest =>
    if p.1 == path then (path, doc) :: rest
    else p :: upsertDoc rest path doc

/-- `ScManifest._parse_include(path, include_root)` (lines 292-303),
threading `self.manifests` as an accumulator and bounding the unbounded
recursion of the source by fuel (one unit per include-nesting level). A
`None` path raises the path-join `TypeError` before anything else — this
is how the unchecked root-level include loop fails. A symlinked manifest
path is not exercised by the modelled behaviours. -/
def parseInclude (fs : FileSystem) : Nat → Option String → String →
    List (String × XmlElem) → Except LoadError (List (String × XmlElem))
  | _, none, _, _ => .error .pathJoinTypeError
  | 0, some _, _, _ => .error .outOfFuel
  | f + 1, some p, includeRoot, acc =>
    match readFs fs (pathJoin includeRoot p) with
    | some (.file doc) =>
      subLoop (fun pa rt ac => parseInclude fs f pa rt ac)
        (pathJoin includeRoot p) doc.children
        (upsertDoc acc (pathJoin includeRoot p) doc)
    | _ => .error (.parseOSError (pathJoin includeRoot p))

/-- The loop of `ScManifest.__init__` over the root document's
`include` elements (lines 146-147): the `name` attribute is forwarded to
`_parse_include` without any check. -/
def processRootIncludes (fs : FileSystem) (fuel : Nat) (includeRoot : String) :
    List XmlElem → List (String × XmlElem) →
    Except LoadError (List (String × XmlElem))
  | [], acc => .ok acc
  | inc :: rest, acc =>
    match parseInclude fs fuel (getAttr inc "name") includeRoot acc with
    | .error e => .error e
    | .ok acc2 => processRootIncludes fs fuel includeRoot rest acc2

/-- `ScManifest.__init__` (lines 133-155): check existence, parse the
root, resolve includes recursively, then require at most one top-level
`<default>` across all loaded documents. -/
def scManifestInit (fs : FileSystem) (fuel : Nat) (manifestPath : String) :
    Except LoadError ScManifest :=
  match readFs fs manifestPath with
  | some (.file doc) =>
    match processRootIncludes fs fuel (dirOf manifestPath)
        (findTop doc "include") [(manifestPath, doc)] with
    | .error e => .error e
    | .ok manifests =>
      match findAllDocs manifests "default" with
      | [] => .ok ⟨manifests, none⟩
      | [d] => .ok ⟨manifests, some d⟩
      | _ => .error .duplicateDefault
  | _ => .error (.fileNotFound manifestPath)

/-- `ScManifest.from_repo_root` (lines 157-182): follow a symlinked
pointer file; otherwise parse the pointer file, require exactly one
`<include>` — but the error message for a wrong count concatenates a
`str` with an `int`, so that branch raises `TypeError` instead of the
intended `ValueError` — and construct from
`<pointer-dir>/manifests/<include name>`. -/
def fromRepoRoot (fs : FileSystem) (fuel : Nat) (repoRoot : String) :
    Except LoadError ScManifest :=
  match readFs fs (pathJoin repoRoot "manifest.xml") with
  | some (.symlink target) => scManifestInit fs fuel (pathJoin repoRoot target)
  | some (.file doc) =>
    match findTop doc "include" with
    | [inc] =>
      match getAttr inc "name" with
      | some n => scManifestInit fs fuel (pathJoin (pathJoin repoRoot "manifests") n)
      | none => .error .keyError
    | _ => .error .strConcatTypeError
  | none => .error (.parseOSError (pathJoin repoRoot "manifest.xml"))

/-! ### Concrete manifests and elements used by witnesses -/

/-- A resolver state with no default record and no documents beyond what
a witness needs. -/
def emptyManifest : ScManifest := ⟨[], none⟩

/-- A default record supplying a `remote` value. -/
def witDefault : XmlElem := .mk "default" [("remote", "external")] []

/-- A resolver state whose default record is `witDefault`. -/
def witManifest : ScManifest := ⟨[], some witDefault⟩

/-- A project carrying an explicit `name` but no `remote`. -/
def witProject : XmlElem := .mk "project" [("name", "A"), ("path", "p1")] []

/-! ### Helper lemmas -/

/-- After filtering out a key, no entry with that key can be found. -/
theorem find?_filter_key_eq_none (l : List (String × String)) (name : String) :
    (l.filter (fun p => !(p.1 == name))).find? (fun p => p.1 == name) = none := by
  rw [List.find?_eq_none]
  intro x hx
  simpa using List.of_mem_filter hx

/-! ### C5 -/

/-- C5: reading an attribute through the element wrapper returns the
node's own string value when the attribute is present on the node (even
an empty string); otherwise the default record's value for that name when
a default record exists; otherwise an absent result, not an error. -/
theorem C5_attribute_read_fallback (m : ScManifest) (e : XmlElem) (name : String) :
    (∀ v, getAttr e name = some v → interfaceGet m e name = some v) ∧
    (∀ d, getAttr e name = none → m.defaultElem = some d →
      interfaceGet m e name = getAttr d name) ∧
    (getAttr e name = none → m.defaultElem = none → interfaceGet m e name = none) := by
  refine ⟨fun v hv => ?_, fun d ha hd => ?_, fun ha hd => ?_⟩ <;>
    simp [interfaceGet, getDefaultValue, *]

/-- Witness for C5 at concrete inputs: an explicit attribute, a
defaulted attribute, and an attribute absent everywhere. -/
theorem C5_attribute_read_fallback_witness :
    interfaceGet witManifest witProject "name" = some "A" ∧
    interfaceGet witManifest witProject "remote" = getAttr witDefault "remote" ∧
    interfaceGet emptyManifest witProject "remote" = none :=
  ⟨(C5_attribute_read_fallback witManifest witProject "name").1 "A" rfl,
   (C5_attribute_read_fallback witManifest witProject "remote").2.1 witDefault rfl rfl,
   (C5_attribute_read_fallback emptyManifest witProject "remote").2.2 rfl rfl⟩

/-! ### C6 -/

/-- C6: deleting an attribute through the element wrapper fails with the
"not set" `AttributeError` whenever the attribute is not explicitly set
on the node — even when the default record would supply a value for that
name — and when it is explicitly set, deletion removes it from the
node. -/
theorem C6_delete_requires_explicit (m : ScManifest) (e : XmlElem) (name : String) :
    (getAttr e name = none → delAttr e name = .error (.attributeNotSet name)) ∧
    (∀ v, getAttr e name = none → getDefaultValue m name = some v →
      delAttr e name = .error (.attributeNotSet name)) ∧
    (∀ v, getAttr e name = some v →
      ∃ e2, delAttr e name = .ok e2 ∧ getAttr e2 name = none) := by
  refine ⟨fun h => by simp [delAttr, h], fun v h _ => by simp [delAttr, h],
    fun v h => ⟨XmlElem.mk e.tag (e.attrs.filter (fun p => !(p.1 == name))) e.children,
      by simp [delAttr, h], ?_⟩⟩
  simp [getAttr, XmlElem.attrs, find?_filter_key_eq_none]

/-- Witness for C6: deleting `remote` (supplied only by the default
record) fails, while deleting the explicit `name` succeeds and removes
it. -/
theorem C6_delete_requires_explicit_witness :
    delAttr witProject "remote" = .error (.attributeNotSet "remote") ∧
    ∃ e2, delAttr witProject "name" = .ok e2 ∧ getAttr e2 "name" = none :=
  ⟨(C6_delete_requires_explicit witManifest witProject "remote").2.1 "external" rfl rfl,
   (C6_delete_requires_explicit witManifest witProject "name").2.2 "A" rfl⟩

/-! ### C9 -/

/-- A project whose `path` attribute is present but empty. -/
def c9Elem : XmlElem := .mk "project" [("path", ""), ("name", "foo")] []

/-- C9 counterexample: on a node whose `path` attribute is present with
the empty-string value, the derived path is not that present value — the
Python `or` treats the empty string as falsy and falls back to `name`. -/
theorem C9_derived_path_counterexample :
    getAttr c9Elem "path" = some "" ∧ projectPath c9Elem ≠ some "" := by
  refine ⟨rfl, ?_⟩
  decide

/-- C9 amended: the derived path equals the node's `path` attribute when
that attribute is present and non-empty; when `path` is absent or present
but empty, it equals the node's `name` attribute. -/
theorem C9_derived_path_amended (e : XmlElem) :
    (∀ p, getAttr e "path" = some p → p ≠ "" → projectPath e = some p) ∧
    (getAttr e "path" = none → projectPath e = getAttr e "name") ∧
    (getAttr e "path" = some "" → projectPath e = getAttr e "name") := by
  refine ⟨fun p hp hne => ?_, fun h => ?_, fun h => ?_⟩ <;>
    simp [projectPath, pyOr, pyTruthy, *, String.isEmpty_iff]

/-- Witness for C9's amended statement at concrete nodes. -/
theorem C9_derived_path_amended_witness :
    projectPath witProject = some "p1" ∧
    projectPath (XmlElem.mk "project" [("name", "bar")] []) = some "bar" ∧
    projectPath c9Elem = getAttr c9Elem "name" :=
  ⟨(C9_derived_path_amended witProject).1 "p1" rfl (by decide),
   (C9_derived_path_amended (XmlElem.mk "project" [("name", "bar")] [])).2.1 rfl,
   (C9_derived_path_amended c9Elem).2.2 rfl⟩

/-! ### C4 -/

/-- The branch-alternative scan skips a prefix of annotations that match
neither the branch annotation nor the suffix annotation. -/
theorem altBranchScan_skip (m : ScManifest) (branch bAnn sAnn : String)
    (pre tail : List XmlElem)
    (h : ∀ b ∈ pre, interfaceGet m b "name" ≠ some bAnn ∧
      interfaceGet m b "name" ≠ some sAnn) :
    altBranchScan m branch bAnn sAnn (pre ++ tail) =
      altBranchScan m branch bAnn sAnn tail := by
  induction pre with
  | nil => rfl
  | cons a pre ih =>
    have ha := h a (by simp)
    simpa [altBranchScan, ha.1, ha.2] using ih (fun b hb => h b (by simp [hb]))

/-- The branch-alternative scan of a list with no matching annotation is
absent. -/
theorem altBranchScan_none (m : ScManifest) (branch bAnn sAnn : String)
    (l : List XmlElem)
    (h : ∀ b ∈ l, interfaceGet m b "name" ≠ some bAnn ∧
      interfaceGet m b "name" ≠ some sAnn) :
    altBranchScan m branch bAnn sAnn l = none := by
  induction l with
  | nil => rfl
  | cons a l ih =>
    have ha := h a (by simp)
    simpa [altBranchScan, ha.1, ha.2] using ih (fun b hb => h b (by simp [hb]))

/-- C4: `alternative_master` (resp. `alternative_develop`) is one
left-to-right scan of the child annotation nodes in document order — the
first annotation whose name resolves to `GIT_FLOW_BRANCH_<BRANCH>` yields
its value verbatim, the first whose name resolves to `GIT_FLOW_SUFFIX`
yields `"<branch>-<suffix value>"`, whichever occurs first wins, and the
result is absent when no annotation of either kind exists. -/
theorem C4_alternative_branch (m : ScManifest) (e : XmlElem) (branch : String) :
    (∀ pre a post,
      searchChildren e "annotation" = pre ++ a :: post →
      (∀ b ∈ pre,
        interfaceGet m b "name" ≠ some ("GIT_FLOW_BRANCH_" ++ branch.toUpper) ∧
        interfaceGet m b "name" ≠ some "GIT_FLOW_SUFFIX") →
      (interfaceGet m a "name" = some ("GIT_FLOW_BRANCH_" ++ branch.toUpper) →
        getAlternativeBranch m e branch = interfaceGet m a "value") ∧
      (interfaceGet m a "name" ≠ some ("GIT_FLOW_BRANCH_" ++ branch.toUpper) →
        interfaceGet m a "name" = some "GIT_FLOW_SUFFIX" →
        ∀ v, interfaceGet m a "value" = some v →
          getAlternativeBranch m e branch = some (branch ++ "-" ++ v))) ∧
    ((∀ b ∈ searchChildren e "annotation",
      interfaceGet m b "name" ≠ some ("GIT_FLOW_BRANCH_" ++ branch.toUpper) ∧
      interfaceGet m b "name" ≠ some "GIT_FLOW_SUFFIX") →
      getAlternativeBranch m e branch = none) ∧
    alternativeMaster m e = getAlternativeBranch m e "master" ∧
    alternativeDevelop m e = getAlternativeBranch m e "develop" := by
  refine ⟨fun pre a post hsplit hpre => ?_, fun hall => ?_, rfl, rfl⟩
  · unfold getAlternativeBranch
    rw [hsplit, altBranchScan_skip m branch _ _ pre (a :: post) hpre]
    refine ⟨fun hb => by simp [altBranchScan, hb], fun hb hs v hv => ?_⟩
    have hb2 : ("GIT_FLOW_SUFFIX" : String) ≠ "GIT_FLOW_BRANCH_" ++ branch.toUpper :=
      fun hcontra => hb (hs.trans (by rw [hcontra]))
    simp [altBranchScan, hs, hb2, hv, pyStr]
  · unfold getAlternativeBranch
    exact altBranchScan_none m branch _ _ _ hall

/-- An annotation naming the git-flow suffix. -/
def witSuffixAnn : XmlElem :=
  .mk "annotation" [("name", "GIT_FLOW_SUFFIX"), ("value", "v2")] []

/-- A project whose only annotation is the suffix annotation. -/
def witSuffixProject : XmlElem :=
  .mk "project" [("name", "test_repo/a.git"), ("path", "dira")] [witSuffixAnn]

/-- Witness for C4: the suffix annotation alone yields `master-v2`. -/
theorem C4_alternative_branch_witness :
    getAlternativeBranch emptyManifest witSuffixProject "master" =
      some ("master" ++ "-" ++ "v2") :=
  ((C4_alternative_branch emptyManifest witSuffixProject "master").1
      [] witSuffixAnn [] rfl (by simp)).2 (by decide) (by decide) "v2" rfl

/-! ### C1 -/

/-- The three-armed removal condition, as a proposition. -/
theorem removeMatches_iff (m : ScManifest) (rm p : XmlElem) :
    removeMatches m rm p = true ↔
      (interfaceGet m rm "name" = interfaceGet m p "name" ∧
        interfaceGet m rm "path" = projectPath p) ∨
      (interfaceGet m rm "name" = interfaceGet m p "name" ∧
        interfaceGet m rm "path" = none) ∨
      (interfaceGet m rm "name" = none ∧
        interfaceGet m rm "path" = projectPath p) := by
  simp [removeMatches, or_assoc]

/-- C1: a remove-project entry with both (wrapper-visible) `name` and
`path` removes a project only when both match; with only `name`, when the
name matches regardless of path; with only `path`, when the derived path
matches regardless of name. Each entry removes only the first matching
project, entries are applied in manifest order, and later entries
continue against the shortened list — which is what `projects()` returns
applied to the raw project list. -/
theorem C1_remove_project_filtering (m : ScManifest) (rm : XmlElem) :
    (∀ p n pa, interfaceGet m rm "name" = some n →
      interfaceGet m rm "path" = some pa →
      (removeMatches m rm p = true ↔
        interfaceGet m p "name" = some n ∧ projectPath p = some pa)) ∧
    (∀ p n, interfaceGet m rm "name" = some n →
      interfaceGet m rm "path" = none →
      (removeMatches m rm p = true ↔ interfaceGet m p "name" = some n)) ∧
    (∀ p pa, interfaceGet m rm "name" = none →
      interfaceGet m rm "path" = some pa →
      (removeMatches m rm p = true ↔ projectPath p = some pa)) ∧
    (∀ rms projects, applyRemoveList m (rm :: rms) projects =
      applyRemoveList m rms (removeFirstMatch m rm projects)) ∧
    (∀ pre p post, (∀ q ∈ pre, removeMatches m rm q = false) →
      removeMatches m rm p = true →
      removeFirstMatch m rm (pre ++ p :: post) = pre ++ post) ∧
    (∀ l, (∀ q ∈ l, removeMatches m rm q = false) →
      removeFirstMatch m rm l = l) ∧
    projectsOf m = applyRemoveList m (removeProjectsOf m) (m.findAll "project") := by
  refine ⟨fun p n pa hn hp => ?_, fun p n hn hp => ?_, fun p pa hn hp => ?_,
    fun rms projects => rfl, fun pre p post hpre hp => ?_, fun l hl => ?_, rfl⟩
  · rw [removeMatches_iff, hn, hp]
    constructor
    · rintro (⟨h1, h2⟩ | ⟨h1, h2⟩ | ⟨h1, h2⟩)
      · exact ⟨h1.symm, h2.symm⟩
      · exact absurd h2 (by simp)
      · exact absurd h1 (by simp)
    · rintro ⟨h1, h2⟩
      exact Or.inl ⟨h1.symm, h2.symm⟩
  · rw [removeMatches_iff, hn, hp]
    constructor
    · rintro (⟨h1, h2⟩ | ⟨h1, h2⟩ | ⟨h1, h2⟩)
      · exact h1.symm
      · exact h1.symm
      · exact absurd h1 (by simp)
    · intro h
      exact Or.inr (Or.inl ⟨h.symm, rfl⟩)
  · rw [removeMatches_iff, hn, hp]
    constructor
    · rintro (⟨h1, h2⟩ | ⟨h1, h2⟩ | ⟨h1, h2⟩)
      · exact h2.symm
      · exact absurd h2 (by simp)
      · exact h2.symm
    · intro h
      exact Or.inr (Or.inr ⟨rfl, h.symm⟩)
  · induction pre with
    | nil => simp [removeFirstMatch, hp]
    | cons q pre ih =>
      have hq := hpre q (by simp)
      simp only [List.cons_append, removeFirstMatch, hq, if_false, Bool.false_eq_true]
      simp only [List.cons.injEq, true_and]
      exact ih (fun r hr => hpre r (by simp [hr]))
  · induction l with
    | nil => rfl
    | cons q l ih =>
      have hq := hl q (by simp)
      simp only [removeFirstMatch, hq, if_false, Bool.false_eq_true,
        List.cons.injEq, true_and]
      exact ih (fun r hr => hl r (by simp [hr]))

/-- A second project sharing the first project's name but at another
path. -/
def witProjectB : XmlElem := .mk "project" [("name", "A"), ("path", "p2")] []

/-- A remove-project entry carrying only a name. -/
def witRemoveByName : XmlElem := .mk "remove-project" [("name", "A")] []

/-- A remove-project entry carrying a name and a path. -/
def witRemoveBoth : XmlElem :=
  .mk "remove-project" [("name", "A"), ("path", "p2")] []

/-- Witness for C1, mirroring the spec's precedence example: with
projects `A/p1` and `A/p2`, removal by name only hits the first project
named `A` (so `A/p2` survives), removal by name and path hits only the
matching project, and the first-match step removes exactly the first
matching element. -/
theorem C1_remove_project_filtering_witness :
    (removeMatches emptyManifest witRemoveByName witProject = true ↔
      interfaceGet emptyManifest witProject "name" = some "A") ∧
    (removeMatches emptyManifest witRemoveBoth witProject = true ↔
      interfaceGet emptyManifest witProject "name" = some "A" ∧
        projectPath witProject = some "p2") ∧
    removeFirstMatch emptyManifest witRemoveByName [witProject, witProjectB] =
      [witProjectB] ∧
    applyRemoveList emptyManifest [witRemoveByName] [witProject, witProjectB] =
      applyRemoveList emptyManifest []
        (removeFirstMatch emptyManifest witRemoveByName [witProject, witProjectB]) :=
  ⟨(C1_remove_project_filtering emptyManifest witRemoveByName).2.1
      witProject "A" rfl rfl,
   (C1_remove_project_filtering emptyManifest witRemoveBoth).1
      witProject "A" "p2" rfl rfl,
   (C1_remove_project_filtering emptyManifest witRemoveByName).2.2.2.2.1
      [] witProject [witProjectB] (by simp) (by decide),
   (C1_remove_project_filtering emptyManifest witRemoveByName).2.2.2.1
      [] [witProject, witProjectB]⟩

/-! ### C8 -/

/-- C8: `projects()` leaves the resolver state untouched, so calling it
twice with no intervening mutation yields equal lists: the remove-project
filtering works on a freshly derived local list each call and never
writes to the underlying documents. -/
theorem C8_projects_read_only (m : ScManifest) :
    (projectsCall m).2 = m ∧
    (projectsCall ((projectsCall m).2)).1 = (projectsCall m).1 ∧
    (projectsCall m).1 = projectsOf m :=
  ⟨rfl, rfl, rfl⟩

/-! ### C10 -/

/-- C10: on a resolver with zero default elements, the public `default`
accessor still returns a wrapper (never an absent result), but the
wrapper's underlying node is null, so attribute reads and mutations
through it fail — while `defaultValue(attrName)` on the same resolver
correctly returns absent. -/
theorem C10_default_wrapper_not_absent (m : ScManifest)
    (h : m.defaultElem = none) :
    defaultProp m ≠ none ∧
    (∃ w, defaultProp m = some w ∧ w.element = none ∧
      (∀ name, wrapperGet m w name = .error .noneTypeAttr) ∧
      (∀ name value, wrapperSet w name value = .error .noneTypeAttr)) ∧
    (∀ name, getDefaultValue m name = none) := by
  refine ⟨by simp [defaultProp], ⟨⟨m.defaultElem⟩, rfl, h, ?_, ?_⟩,
      fun name => by simp [getDefaultValue, h]⟩ <;>
    intro name <;> simp [wrapperGet, wrapperSet, h]

/-- Witness for C10 on a concrete resolver with no default record. -/
theorem C10_default_wrapper_not_absent_witness :
    defaultProp emptyManifest ≠ none ∧
    getDefaultValue emptyManifest "remote" = none :=
  ⟨(C10_default_wrapper_not_absent emptyManifest rfl).1,
   (C10_default_wrapper_not_absent emptyManifest rfl).2.2 "remote"⟩

/-! ### C3 -/

/-- A workspace-root pointer file that is a regular XML file containing
zero top-level `include` elements. -/
def c3PointerDoc : XmlElem := .mk "manifest" [] []

/-- The file system for the C3 failing input: `repo/manifest.xml` is the
regular pointer file above, not a symlink. -/
def c3Fs : FileSystem := [("repo/manifest.xml", .file c3PointerDoc)]

/-- C3: on a non-symlink pointer file with an include count different
from one, construction does fail — but with the `TypeError` raised while
the error message concatenates a `str` and an `int`
(`"... Should be one but is " + len(included)`), so the intended
"wrong include count" `ValueError` naming the actual count is never
raised. The spec describes the evident intent; the missing `str()` in
`from_repo_root` is a code bug. -/
theorem C3_wrong_include_count_bug :
    fromRepoRoot c3Fs 5 "repo" = .error .strConcatTypeError := rfl

/-! ### C2 -/

/-- A root manifest whose only top-level element is an `include` with no
`name` attribute. -/
def c2RootDoc : XmlElem := .mk "manifest" [] [XmlElem.mk "include" [] []]

/-- The file system holding only that root manifest. -/
def c2Fs : FileSystem := [("root/manifest.xml", .file c2RootDoc)]

/-- C2 counterexample: when the offending document is the root manifest
itself, construction fails with the path-join `TypeError` (the root-level
include loop forwards the missing name unchecked), not with the
"malformed include" condition identifying the document's path. -/
theorem C2_root_include_counterexample :
    scManifestInit c2Fs 5 "root/manifest.xml" = .error .pathJoinTypeError ∧
    LoadError.pathJoinTypeError ≠ .malformedInclude "root/manifest.xml" :=
  ⟨rfl, by decide⟩

/-- C2 amended: whenever the `_parse_include` subelement loop over an
included document reaches a top-level include lacking a `name`,
construction fails with the "malformed include" condition identifying
that document's path; but when the root manifest's own include loop
reaches such an include, construction fails with the path-join
`TypeError` instead, which names no document. -/
theorem C2_malformed_include_amended :
    (∀ (resolve : Option String → String → List (String × XmlElem) →
        Except LoadError (List (String × XmlElem)))
      (fullPath : String) (pre : List XmlElem) (bad : XmlElem)
      (post : List XmlElem) (acc acc2 : List (String × XmlElem)),
      subLoop resolve fullPath pre acc = .ok acc2 →
      bad.tag = "include" → getAttr bad "name" = none →
      subLoop resolve fullPath (pre ++ bad :: post) acc =
        .error (.malformedInclude fullPath)) ∧
    (∀ (fs : FileSystem) (fuel : Nat) (includeRoot : String)
      (pre : List XmlElem) (bad : XmlElem) (post : List XmlElem)
      (acc acc2 : List (String × XmlElem)),
      processRootIncludes fs fuel includeRoot pre acc = .ok acc2 →
      bad.tag = "include" → getAttr bad "name" = none →
      processRootIncludes fs fuel includeRoot (pre ++ bad :: post) acc =
        .error .pathJoinTypeError) := by
  constructor
  · intro resolve fullPath pre bad post acc acc2 h htag hname
    induction pre generalizing acc with
    | nil => simp [subLoop, htag, hname]
    | cons s pre ih =>
      rw [List.cons_append]
      by_cases hs : (s.tag == "include") = true
      · rcases hga : getAttr s "name" with _ | n
        · simp only [subLoop, if_pos hs, hga] at h
          exact absurd h (by simp)
        · simp only [subLoop, if_pos hs, hga] at h ⊢
          rcases hr : resolve (some n) (dirOf fullPath) acc with e | acc3
          · rw [hr] at h
            exact absurd h (by simp)
          · rw [hr] at h
            exact ih acc3 h
      · simp only [subLoop, if_neg hs] at h ⊢
        exact ih acc h
  · intro fs fuel includeRoot pre bad post acc acc2 h htag hname
    induction pre generalizing acc with
    | nil =>
      cases fuel <;> simp [processRootIncludes, parseInclude, hname]
    | cons s pre ih =>
      rw [List.cons_append]
      simp only [processRootIncludes] at h ⊢
      rcases hr : parseInclude fs fuel (getAttr s "name") includeRoot acc with e | acc3
      · rw [hr] at h
        exact absurd h (by simp)
      · rw [hr] at h
        exact ih acc3 h

/-- The included document used by the C2 witness: its only top-level
element is a nameless include. -/
def c2SubDoc : XmlElem := .mk "manifest" [] [XmlElem.mk "include" [] []]

/-- Witness for C2's amended statement: the subelement loop over
`root/sub.xml` fails naming that path, and a root-level loop over a
nameless include fails with the path-join error. -/
theorem C2_malformed_include_amended_witness :
    subLoop (fun pa rt ac => parseInclude c2Fs 3 pa rt ac) "root/sub.xml"
      [XmlElem.mk "include" [] []] [] =
      .error (.malformedInclude "root/sub.xml") ∧
    processRootIncludes c2Fs 3 "root" [XmlElem.mk "include" [] []] [] =
      .error .pathJoinTypeError :=
  ⟨C2_malformed_include_amended.1 (fun pa rt ac => parseInclude c2Fs 3 pa rt ac)
      "root/sub.xml" [] (XmlElem.mk "include" [] []) [] [] [] rfl rfl rfl,
   C2_malformed_include_amended.2 c2Fs 3 "root" [] (XmlElem.mk "include" [] [])
      [] [] [] rfl rfl rfl⟩

/-! ### C7 -/

/-- C7: once the document set is flattened, construction fails with the
"duplicate default" conflict whenever more than one top-level `default`
element exists across all loaded documents; with exactly one, that
element becomes the default record; with zero, construction succeeds and
there is no default record. -/
theorem C7_duplicate_default (fs : FileSystem) (fuel : Nat) (path : String)
    (doc : XmlElem) (docs : List (String × XmlElem))
    (hread : readFs fs path = some (.file doc))
    (hload : processRootIncludes fs fuel (dirOf path) (findTop doc "include")
      [(path, doc)] = .ok docs) :
    (1 < (findAllDocs docs "default").length →
      scManifestInit fs fuel path = .error .duplicateDefault) ∧
    (∀ d, findAllDocs docs "default" = [d] →
      scManifestInit fs fuel path = .ok ⟨docs, some d⟩) ∧
    (findAllDocs docs "default" = [] →
      scManifestInit fs fuel path = .ok ⟨docs, none⟩) := by
  refine ⟨fun hlen => ?_, fun d hd => ?_, fun hz => ?_⟩ <;>
    simp only [scManifestInit, hread, hload]
  · rcases hfd : findAllDocs docs "default" with _ | ⟨d, _ | ⟨d2, rest⟩⟩
    · rw [hfd] at hlen
      simp at hlen
    · rw [hfd] at hlen
      simp at hlen
    · rfl
  · rw [hd]
  · rw [hz]

/-- A root manifest containing two top-level `default` elements. -/
def c7DupDoc : XmlElem :=
  .mk "manifest" []
    [XmlElem.mk "default" [("remote", "external")] [], XmlElem.mk "default" [] []]

/-- The file system holding only that manifest. -/
def c7Fs : FileSystem := [("a/m.xml", .file c7DupDoc)]

/-- The shared leaf of a diamond include, carrying the single default. -/
def c7CommonDoc : XmlElem :=
  .mk "manifest" [] [XmlElem.mk "default" [("remote", "external")] []]

/-- One side of the diamond: includes the shared leaf. -/
def c7ADoc : XmlElem :=
  .mk "manifest" [] [XmlElem.mk "include" [("name", "common.xml")] []]

/-- The other side of the diamond: also includes the shared leaf. -/
def c7BDoc : XmlElem :=
  .mk "manifest" [] [XmlElem.mk "include" [("name", "common.xml")] []]

/-- The diamond's root: includes both sides. -/
def c7RootDoc : XmlElem :=
  .mk "manifest" []
    [XmlElem.mk "include" [("name", "a.xml")] [],
     XmlElem.mk "include" [("name", "b.xml")] []]

/-- The diamond-include file system: `root.xml` includes `a.xml` and
`b.xml`, each of which includes `common.xml`. -/
def c7DiamondFs : FileSystem :=
  [("d/root.xml", .file c7RootDoc), ("d/a.xml", .file c7ADoc),
   ("d/b.xml", .file c7BDoc), ("d/common.xml", .file c7CommonDoc)]

/-- Witness for C7: two defaults in one document make construction fail
with the duplicate-default conflict, while a diamond include whose shared
leaf carries the only default loads that leaf as a single document-set
entry (dict upsert, one entry per path) and construction succeeds with
exactly that default record. -/
theorem C7_duplicate_default_witness :
    scManifestInit c7Fs 3 "a/m.xml" = .error .duplicateDefault ∧
    scManifestInit c7DiamondFs 3 "d/root.xml" =
      .ok ⟨[("d/root.xml", c7RootDoc), ("d/a.xml", c7ADoc),
            ("d/common.xml", c7CommonDoc), ("d/b.xml", c7BDoc)],
           some (XmlElem.mk "default" [("remote", "external")] [])⟩ :=
  ⟨(C7_duplicate_default c7Fs 3 "a/m.xml" c7DupDoc [("a/m.xml", c7DupDoc)]
      rfl rfl).1 (by decide),
   (C7_duplicate_default c7DiamondFs 3 "d/root.xml" c7RootDoc
      [("d/root.xml", c7RootDoc), ("d/a.xml", c7ADoc),
       ("d/common.xml", c7CommonDoc), ("d/b.xml", c7BDoc)] rfl rfl).2.1
      (XmlElem.mk "default" [("remote", "external")] []) rfl⟩

end ScManifestParser
